import Mathlib

/-!
Shallow embedding of the core of `home-assistant-supernote-cloud`:
the identifier codec (`media_source.py`), the folder-metadata cache and
local store (`store/store.py`), and the cache-entry model
(`store/model.py`).

Python strings are modelled as `List Char`; Python `int` as Lean `Int`
(arbitrary precision in both); `datetime` instants as whole seconds
(`Nat`), so the 1-hour `MAX_CACHE_LIFETIME` is 3600.  Fallible Python
code (raising `ValueError` etc.) is modelled with `Option`/`Except`.
-/

namespace SupernoteCloud

/-! ## Python string primitives

`str.split(sep)` and `str.split(sep, maxsplit=2)` for a single-character
separator, `str(int)` and `int(str)` (the ASCII-decimal core accepted by
Python's `int()`: an optional sign followed by a non-empty digit run). -/

/-- Decimal digit to its character, `d < 10` expected (`'0'` + d). -/
def charOfDigit (d : Nat) : Char := Char.ofNat (48 + d)

/-- Character to decimal digit value (meaningful on `'0'`..`'9'`). -/
def digitOfChar (c : Char) : Nat := c.toNat - 48

/-- Digit characters of `n`, most significant first; `fuel` bounds the
recursion (`fuel ≥ n` suffices).  Empty for `n = 0`. -/
def natToCharsAux : Nat → Nat → List Char
  | 0, _ => []
  | fuel + 1, n =>
    if n = 0 then []
    else natToCharsAux fuel (n / 10) ++ [charOfDigit (n % 10)]

/-- Model of Python `str(n)` for a non-negative integer. -/
def natToChars (n : Nat) : List Char :=
  if n = 0 then ['0'] else natToCharsAux n n

/-- Model of Python `str(i)` for an arbitrary integer. -/
def intToChars (i : Int) : List Char :=
  if i < 0 then '-' :: natToChars i.natAbs else natToChars i.toNat

/-- Model of Python `int(s)` on an unsigned ASCII-decimal string:
`none` when empty or containing a non-digit. -/
def pyParseNat (cs : List Char) : Option Nat :=
  if cs.isEmpty then none
  else if cs.all Char.isDigit then
    some (cs.foldl (fun a c => 10 * a + digitOfChar c) 0)
  else none

/-- Model of Python `int(s)`: optional `+`/`-` sign then digits. -/
def pyParseInt (cs : List Char) : Option Int :=
  match cs with
  | [] => none
  | c :: rest =>
    if c = '-' then (pyParseNat rest).map (fun n => -(n : Int))
    else if c = '+' then (pyParseNat rest).map (fun n => (n : Int))
    else (pyParseNat (c :: rest)).map (fun n => (n : Int))

/-- Split off everything before the first occurrence of `sep`:
`some (before, after)` when `sep` occurs, `none` otherwise. -/
def splitFirst (sep : Char) : List Char → Option (List Char × List Char)
  | [] => none
  | x :: xs =>
    if x = sep then some ([], xs)
    else (splitFirst sep xs).map (fun p => (x :: p.1, p.2))

/-- Model of Python `s.split(sep)` for a one-character separator:
always returns at least one piece; empty pieces are kept. -/
def splitOnChar (sep : Char) : List Char → List (List Char)
  | [] => [[]]
  | x :: xs =>
    let r := splitOnChar sep xs
    if x = sep then [] :: r
    else
      match r with
      | h :: t => (x :: h) :: t
      | [] => [[x]]

/-- Model of Python `s.split(sep, maxsplit=2)`: at most three pieces. -/
def splitMax2 (sep : Char) (s : List Char) : List (List Char) :=
  match splitFirst sep s with
  | none => [s]
  | some (a, rest) =>
    match splitFirst sep rest with
    | none => [a, rest]
    | some (b, rest2) => [a, b, rest2]

/-- Model of Python `sep.join(pieces)` for a one-character separator. -/
def joinSep (sep : Char) : List (List Char) → List Char
  | [] => []
  | [p] => p
  | p :: q :: ps => p ++ sep :: joinSep sep (q :: ps)

/-! ## Identifier codec (`media_source.py`)

`SupernoteIdentifierType` is a `StrEnum` with one-character values; an
f-string interpolation of a member yields that value, so `as_string`
emits exactly one character for the type tag. -/

/-- Source `SupernoteIdentifierType` (media_source.py line 30). -/
inductive SupernoteIdentifierType where
  | NOTE_FILE
  | NOTE_PAGE
  | FOLDER
deriving DecidableEq, Repr

/-- The `StrEnum` string value of each member (single character). -/
def SupernoteIdentifierType.value : SupernoteIdentifierType → Char
  | .NOTE_FILE => 'n'
  | .NOTE_PAGE => 'p'
  | .FOLDER => 'f'

/-- Source `SupernoteIdentifierType.of` (media_source.py line 37): scans the
members for one whose value equals `name`; `ValueError` otherwise. -/
def SupernoteIdentifierType.of (name : List Char) : Option SupernoteIdentifierType :=
  if name = ['n'] then some .NOTE_FILE
  else if name = ['p'] then some .NOTE_PAGE
  else if name = ['f'] then some .FOLDER
  else none

/-- Source `SupernoteIdentifier` (media_source.py line 46). -/
structure SupernoteIdentifier where
  config_entry_id : List Char
  id_type : SupernoteIdentifierType
  media_id_path : List Int
deriving DecidableEq, Repr

/-- Source `SupernoteIdentifier.as_string` (media_source.py line 106):
`f"{config_entry_id}{sep}{id_type}{sep}{sep.join(str(p) for p in path)}"`. -/
def SupernoteIdentifier.as_string (x : SupernoteIdentifier) (sep : Char) : List Char :=
  x.config_entry_id ++ sep :: x.id_type.value :: sep ::
    joinSep sep (x.media_id_path.map intToChars)

/-- The comprehension `[int(p) for p in blob.split(sep)]`: all pieces
parse, or the whole comprehension raises `ValueError`. -/
def parseIntList : List (List Char) → Option (List Int)
  | [] => some []
  | p :: rest =>
    match pyParseInt p, parseIntList rest with
    | some i, some is => some (i :: is)
    | _, _ => none

/-- Source `SupernoteIdentifier.of` (media_source.py line 111):
split with `maxsplit=2`, require 3 fields, parse every path segment as
an integer, parse the type tag; any failure is a `ValueError`. -/
def SupernoteIdentifier.of (identifier : List Char) (sep : Char) :
    Option SupernoteIdentifier :=
  match splitMax2 sep identifier with
  | [a, t, rest] =>
    match parseIntList (splitOnChar sep rest) with
    | none => none
    | some path_parts =>
      match SupernoteIdentifierType.of t with
      | none => none
      | some ty => some ⟨a, ty, path_parts⟩
  | _ => none

/-- Source `SupernoteIdentifier.encode` (media_source.py line 123). -/
def SupernoteIdentifier.encode (x : SupernoteIdentifier) : List Char :=
  x.as_string ':'

/-- Source `SupernoteIdentifier.decode` (media_source.py line 128). -/
def SupernoteIdentifier.decode (identifier : List Char) :
    Option SupernoteIdentifier :=
  SupernoteIdentifier.of identifier ':'

/-! ## Python `dict` model

Python dicts preserve insertion order; assignment to an existing key
overwrites in place.  Modelled as an association list with in-place
overwrite. -/

/-- Assignment `d[k] = v` on a Python dict. -/
def dictInsert {κ α : Type} [DecidableEq κ] (k : κ) (v : α) :
    List (κ × α) → List (κ × α)
  | [] => [(k, v)]
  | (k1, v1) :: rest =>
    if k1 = k then (k, v) :: rest else (k1, v1) :: dictInsert k v rest

/-- Lookup `d.get(k)` on a Python dict. -/
def dictGet {κ α : Type} [DecidableEq κ] (k : κ) : List (κ × α) → Option α
  | [] => none
  | (k1, v1) :: rest => if k1 = k then some v1 else dictGet k rest

/-- Deletion `del d[k]` / `path.unlink()`: drop the entry with key `k`. -/
def dictRemove {κ α : Type} [DecidableEq κ] (k : κ) (d : List (κ × α)) :
    List (κ × α) :=
  d.filter (fun p => !(decide (p.1 = k)))

/-! ## Cache entry model (`store/model.py`)

Instants are whole seconds (`Nat`); `MAX_CACHE_LIFETIME` is
`datetime.timedelta(hours=1)` = 3600 seconds.  `datetime.now()` is
passed explicitly as `now`. -/

def MAX_CACHE_LIFETIME : Nat := 3600

/-- Source `FileInfo` (store/model.py line 12). -/
structure FileInfo where
  file_id : Int
  parent_folder_id : Int
  name : List Char
  md5 : List Char
  size : Int
  create_time : Int
  update_time : Int
deriving DecidableEq, Repr

/-- Source `FolderInfo` (store/model.py line 25). -/
structure FolderInfo where
  folder_id : Int
  parent_folder_id : Int
  name : List Char
  create_time : Option Int := none
  update_time : Option Int := none
deriving DecidableEq, Repr

/-- Source `FolderContents` (store/model.py line 36); `cache_ts` is set by the
creator (`default_factory=datetime.datetime.now` in the source). -/
structure FolderContents where
  folder_id : Int
  file_children : List FileInfo := []
  folder_children : List FolderInfo := []
  cache_ts : Nat
deriving DecidableEq, Repr

/-- Source `FolderContents.is_expired` (store/model.py line 46):
`(datetime.now() - cache_ts) > MAX_CACHE_LIFETIME`.  A `cache_ts` in
the future gives a negative timedelta in Python and `0` under `Nat`
truncation — not expired either way. -/
def FolderContents.is_expired (fc : FolderContents) (now : Nat) : Bool :=
  MAX_CACHE_LIFETIME < now - fc.cache_ts

/-- The value type of the `children` dict: `FileInfo | FolderInfo`. -/
inductive ChildInfo where
  | file (info : FileInfo)
  | folder (info : FolderInfo)
deriving DecidableEq, Repr

/-- Source `FolderContents.children` (store/model.py line 51): a dict built by
inserting every file child keyed by `file_id`, then every folder child
keyed by `folder_id`; a later insert with an equal key overwrites. -/
def FolderContents.children (fc : FolderContents) : List (Int × ChildInfo) :=
  let d := fc.file_children.foldl
    (fun d f => dictInsert f.file_id (ChildInfo.file f) d) []
  fc.folder_children.foldl
    (fun d g => dictInsert g.folder_id (ChildInfo.folder g) d) d

/-! ## Remote API response model (`model.py`)

Only the fields `get_folder_contents` consumes; the envelope fields
(`success`, `error_code`, `total`, ...) are never read by the store. -/

/-- Source `File` (model.py line 73). -/
structure File where
  id : Int
  directory_id : Int
  file_name : List Char
  size : Int
  md5 : List Char
  is_folder : List Char
  create_time : Int
  update_time : Int
deriving DecidableEq, Repr

/-- Source `FileListResponse.file_list` (model.py line 99). -/
structure FileListResponse where
  file_list : List File
deriving DecidableEq, Repr

/-- Modelled from the spec: `store/store.py` imports `IS_FOLDER` from
`store/model.py`, but no file in the snapshot defines it.  The spec's
remote-interface section gives the flag as `is_folder: "Y"|"N"` and the
repository test data marks folders with `"Y"`. -/
def IS_FOLDER : List Char := ['Y']

/-- The error outcomes of the store operations: `UnauthorizedException`
and `ApiException` from the remote client, and the distinct
`ValueError`s raised in `store/store.py` (identified by message). -/
inductive StoreError where
  | unauthorized
  | apiError
  | nonNoteFile
  | invalidPageNumber
  | conversionFailed
deriving DecidableEq, Repr

/-! ## Metadata cache (`store/store.py`, `MetadataStore`)

The backing `Store` holds a JSON dict keyed by `str(folder_id)`;
`str` is injective on integers, so the model keys by the integer
directly.  `to_dict`/`from_dict` (mashumaro) are modelled as the
identity on `FolderContents`. -/

abbrev MetadataStoreData := List (Int × FolderContents)

/-- Source `MetadataStore.get_folder_contents` (store/store.py line 64). -/
def MetadataStore.get_folder_contents (data : MetadataStoreData)
    (folder_id : Int) : Option FolderContents :=
  dictGet folder_id data

/-- Source `MetadataStore.set_folder_contents` (store/store.py line 71):
load, assign `data[str(folder.folder_id)]`, save. -/
def MetadataStore.set_folder_contents (data : MetadataStoreData)
    (folder : FolderContents) : MetadataStoreData :=
  dictInsert folder.folder_id folder data

/-! ## Local store (`store/store.py`, `LocalStore`)

`get_folder_contents` is modelled as a pure transition: given the
remote client's behaviour (a function from folder id to response or
error), the current metadata-cache state and the current time, it
returns the outcome, the new cache state, the number of remote listing
calls made and the number of reauthentication-callback invocations. -/

/-- Outcome of `LocalStore.get_folder_contents`. -/
structure ListResult where
  result : Except StoreError FolderContents
  cache : MetadataStoreData
  remote_calls : Nat
  reauth_calls : Nat

/-- One iteration of the `get_folder_contents` loop (store/store.py
lines 109-129): append the entry to `folder_children` or
`file_children` according to its `is_folder` flag. -/
def buildFolderStep (fc : FolderContents) (file : File) : FolderContents :=
  if file.is_folder = IS_FOLDER then
    { fc with folder_children := fc.folder_children ++
        [{ folder_id := file.id, parent_folder_id := file.directory_id,
           name := file.file_name, create_time := some file.create_time,
           update_time := some file.update_time }] }
  else
    { fc with file_children := fc.file_children ++
        [{ file_id := file.id, parent_folder_id := file.directory_id,
           name := file.file_name, md5 := file.md5, size := file.size,
           create_time := file.create_time,
           update_time := file.update_time }] }

/-- The whole `get_folder_contents` fetch loop: partition every
response entry, in response order, starting from
`FolderContents(folder_id=folder_id)` stamped `now`. -/
def buildFolderContents (folder_id : Int) (now : Nat)
    (resp : FileListResponse) : FolderContents :=
  resp.file_list.foldl buildFolderStep
    { folder_id := folder_id, cache_ts := now }

/-- Source `LocalStore.get_folder_contents` (store/store.py line 94): serve a
present, unexpired cache entry; otherwise fetch remotely (invoking the
reauth callback and re-raising on `UnauthorizedException`), rebuild,
overwrite the cache entry, and return the fresh contents. -/
def LocalStore.get_folder_contents
    (client_file_list : Int → Except StoreError FileListResponse)
    (cache : MetadataStoreData) (now : Nat) (folder_id : Int) : ListResult :=
  let hit : Option FolderContents :=
    match MetadataStore.get_folder_contents cache folder_id with
    | some fc => if fc.is_expired now then none else some fc
    | none => none
  match hit with
  | some fc => ⟨Except.ok fc, cache, 0, 0⟩
  | none =>
    match client_file_list folder_id with
    | Except.error e =>
      ⟨Except.error e, cache, 1, if e = StoreError.unauthorized then 1 else 0⟩
    | Except.ok resp =>
      let fc := buildFolderContents folder_id now resp
      ⟨Except.ok fc, MetadataStore.set_folder_contents cache fc, 1, 0⟩

/-! ## Notebook files and the on-disk cache (`store/store.py`)

The filesystem below the per-account storage root is a dict from paths
(component lists) to byte strings.  `hashlib.md5(...).hexdigest` and
`supernote.parser.load` are opaque external collaborators, passed in as
functions; a parsed notebook is its ordered list of page id strings. -/

abbrev Bytes := List Nat
abbrev FilePath' := List (List Char)
abbrev FileSystem := List (FilePath' × Bytes)

def NOTE_SUFFIX : List Char := ['.', 'n', 'o', 't', 'e']
def PNG_SUFFIX : List Char := ['.', 'p', 'n', 'g']

/-- A parsed note document (`supernote.parser.load` result): the page
ids in page order, as returned by `get_page(i).get_pageid()`. -/
structure Notebook where
  pageIds : List (List Char)
deriving DecidableEq, Repr

/-- Model of `pathlib.PurePath.stem`: final component minus its last suffix; a
leading-dot-only name keeps itself whole. -/
def pathStem (name : List Char) : List Char :=
  match splitOnChar '.' name with
  | [] => name
  | [_] => name
  | [p, _] => if p = [] then name else p
  | ps => joinSep '.' ps.dropLast

/-- Model of `pathlib.PurePath.with_suffix(".png")`: replace the final suffix
(or append when there is none). -/
def withSuffixPng (name : List Char) : List Char :=
  pathStem name ++ PNG_SUFFIX

/-- Python `f"{n:03d}"` for `n ≥ 0`: zero-pad to width 3. -/
def pad3 (n : Nat) : List Char :=
  let s := natToChars n
  List.replicate (3 - s.length) '0' ++ s

/-- Source `NotebookFile` (store/store.py line 219) after its constructor:
parsing the bytes and precomputing the page names
`f"{stem}-{page_num:03d}-{page_id}"`. -/
structure NotebookFile where
  note_contents : Bytes
  note_name : List Char
  local_file_path : FilePath'
  notebook : Notebook
  pages : List (List Char)
deriving DecidableEq, Repr

/-- The `NotebookFile.__init__` body (store/store.py lines 222-235). -/
def NotebookFile.make (parseDoc : Bytes → Notebook) (note_contents : Bytes)
    (note_name : List Char) (local_file_path : FilePath') : NotebookFile :=
  let nb := parseDoc note_contents
  let base := pathStem note_name
  { note_contents := note_contents, note_name := note_name,
    local_file_path := local_file_path, notebook := nb,
    pages := nb.pageIds.enum.map
      (fun p => base ++ '-' :: (pad3 p.1 ++ '-' :: p.2)) }

/-- Source `NotebookFile.local_png_path` (store/store.py line 247):
`ValueError` when `page_num >= len(pages) or page_num < 0`, else
`local_file_path.parent / local_file_path.stem / pages[page_num]`
with the `.png` suffix. -/
def NotebookFile.local_png_path (nf : NotebookFile) (page_num : Int) :
    Except StoreError FilePath' :=
  if (nf.pages.length : Int) ≤ page_num ∨ page_num < 0 then
    Except.error StoreError.invalidPageNumber
  else
    Except.ok (nf.local_file_path.dropLast ++
      [pathStem (nf.local_file_path.getLastD []),
       withSuffixPng (nf.pages.getD page_num.toNat [])])

/-- Source `NotebookFile.read_png` (store/store.py line 268): the cached bytes
at the derived path, or `none`; propagates the bounds error. -/
def NotebookFile.read_png (nf : NotebookFile) (fs : FileSystem)
    (page_num : Int) : Except StoreError (Option Bytes) :=
  match nf.local_png_path page_num with
  | Except.error e => Except.error e
  | Except.ok p => Except.ok (dictGet p fs)

/-- Source `NotebookFile.save_page_png` (store/store.py line 256): render the
page (`render` stands for `ImageConverter.convert` + `save`) and write
it at the derived path. -/
def NotebookFile.save_page_png (render : Notebook → Int → Bytes)
    (nf : NotebookFile) (fs : FileSystem) (page_num : Int) :
    Except StoreError FileSystem :=
  match nf.local_png_path page_num with
  | Except.error e => Except.error e
  | Except.ok p => Except.ok (dictInsert p (render nf.notebook page_num) fs)

/-- One iteration of `clear_png_cache`: delete the derived png path of
one page if present.  The bounds error is unreachable because the
iteration range equals the page count; it is modelled as a no-op. -/
def clearPngStep (nf : NotebookFile) (fs1 : FileSystem) (page_num : Nat) :
    FileSystem :=
  match nf.local_png_path (page_num : Int) with
  | Except.ok p => dictRemove p fs1
  | Except.error _ => fs1

/-- Source `NotebookFile.clear_png_cache` (store/store.py line 282): for every
page index of this (the freshly parsed) notebook, delete the derived
png path if present. -/
def NotebookFile.clear_png_cache (nf : NotebookFile) (fs : FileSystem) :
    FileSystem :=
  (List.range nf.notebook.pageIds.length).foldl (clearPngStep nf) fs

/-- Source `LocalStore._get_local_file_path` (store/store.py line 158):
`storage_path / str(parent_folder_id) / name` (storage root elided). -/
def LocalStore.get_local_file_path (local_file : FileInfo) : FilePath' :=
  [intToChars local_file.parent_folder_id, local_file.name]

/-- Outcome of `LocalStore._get_notebook_file`. -/
structure NotebookResult where
  result : Except StoreError NotebookFile
  fs : FileSystem
  download_calls : Nat
  reauth_calls : Nat

/-- The download branch of `_get_notebook_file` (store/store.py lines
193-216): download (reauth + re-raise on `UnauthorizedException`),
write the bytes, log (not fail) a hash mismatch, and clear the png
cache of the freshly parsed notebook. -/
def LocalStore.downloadNotebook (parseDoc : Bytes → Notebook)
    (client_download : Int → Except StoreError Bytes)
    (fs1 : FileSystem) (local_file : FileInfo) : NotebookResult :=
  let local_path := LocalStore.get_local_file_path local_file
  match client_download local_file.file_id with
  | Except.error e =>
    ⟨Except.error e, fs1, 1, if e = StoreError.unauthorized then 1 else 0⟩
  | Except.ok contents =>
    let fs2 := dictInsert local_path contents fs1
    let nf := NotebookFile.make parseDoc contents local_file.name
      local_path
    ⟨Except.ok nf, nf.clear_png_cache fs2, 1, 0⟩

/-- Source `LocalStore._get_notebook_file` (store/store.py line 164): require
the `.note` suffix; `_get_or_invalidate` serves a hash-matching local
copy and unlinks a mismatching one; the guard `if contents:` at
store.py line 190 is Python truthiness, false for `None` AND for the
empty byte string, so an empty local copy falls through to the
download branch even when its hash matches. -/
def LocalStore.get_notebook_file (md5 : Bytes → List Char)
    (parseDoc : Bytes → Notebook)
    (client_download : Int → Except StoreError Bytes)
    (fs : FileSystem) (local_file : FileInfo) : NotebookResult :=
  if ¬ (NOTE_SUFFIX.isSuffixOf local_file.name) then
    ⟨Except.error StoreError.nonNoteFile, fs, 0, 0⟩
  else
    let local_path := LocalStore.get_local_file_path local_file
    let step : Option Bytes × FileSystem :=
      match dictGet local_path fs with
      | some contents =>
        if md5 contents = local_file.md5 then (some contents, fs)
        else (none, dictRemove local_path fs)
      | none => (none, fs)
    match step with
    | (some contents, fs1) =>
      if contents.isEmpty then
        LocalStore.downloadNotebook parseDoc client_download fs1 local_file
      else
        ⟨Except.ok (NotebookFile.make parseDoc contents local_file.name
          local_path), fs1, 0, 0⟩
    | (none, fs1) =>
      LocalStore.downloadNotebook parseDoc client_download fs1 local_file

/-- Outcome of `LocalStore.get_note_page_names`. -/
structure NamesResult where
  result : Except StoreError (List (List Char))
  fs : FileSystem
  download_calls : Nat
  reauth_calls : Nat

/-- Source `LocalStore.get_note_page_names` (store/store.py line 136). -/
def LocalStore.get_note_page_names (md5 : Bytes → List Char)
    (parseDoc : Bytes → Notebook)
    (client_download : Int → Except StoreError Bytes)
    (fs : FileSystem) (local_file : FileInfo) : NamesResult :=
  match LocalStore.get_notebook_file md5 parseDoc client_download fs
      local_file with
  | ⟨Except.error e, fs1, d, r⟩ => ⟨Except.error e, fs1, d, r⟩
  | ⟨Except.ok nf, fs1, d, r⟩ => ⟨Except.ok nf.pages, fs1, d, r⟩

/-- Outcome of `LocalStore.get_note_png`. -/
structure PngResult where
  result : Except StoreError Bytes
  fs : FileSystem
  download_calls : Nat
  reauth_calls : Nat
  render_calls : Nat

/-- Source `LocalStore.get_note_png` (store/store.py line 141): obtain the
notebook; the first `read_png` result is returned if it `is not None`
(store.py line 148 — an empty cached png IS returned); else render
once, persist and re-read; the final guard `if not contents:` at
store.py line 154 is Python truthiness, true for `None` and for the
empty byte string, so an empty re-read raises
`ValueError("Failed to convert note to PNG")`. -/
def LocalStore.get_note_png (md5 : Bytes → List Char)
    (parseDoc : Bytes → Notebook) (render : Notebook → Int → Bytes)
    (client_download : Int → Except StoreError Bytes)
    (fs : FileSystem) (local_file : FileInfo) (page_num : Int) : PngResult :=
  match LocalStore.get_notebook_file md5 parseDoc client_download fs
      local_file with
  | ⟨Except.error e, fs1, d, r⟩ => ⟨Except.error e, fs1, d, r, 0⟩
  | ⟨Except.ok nf, fs1, d, r⟩ =>
    match nf.read_png fs1 page_num with
    | Except.error e => ⟨Except.error e, fs1, d, r, 0⟩
    | Except.ok (some contents) => ⟨Except.ok contents, fs1, d, r, 0⟩
    | Except.ok none =>
      match nf.save_page_png render fs1 page_num with
      | Except.error e => ⟨Except.error e, fs1, d, r, 0⟩
      | Except.ok fs2 =>
        match nf.read_png fs2 page_num with
        | Except.error e => ⟨Except.error e, fs2, d, r, 1⟩
        | Except.ok (some contents) =>
          if contents.isEmpty then
            ⟨Except.error StoreError.conversionFailed, fs2, d, r, 1⟩
          else
            ⟨Except.ok contents, fs2, d, r, 1⟩
        | Except.ok none =>
          ⟨Except.error StoreError.conversionFailed, fs2, d, r, 1⟩

/-! ## Concrete fixtures used by witnesses and counterexamples -/

def fcFreshW : FolderContents := { folder_id := 7, cache_ts := 100 }

def cacheHitW : MetadataStoreData := [(7, fcFreshW)]

def emptyRespW : FileListResponse := ⟨[]⟩

def clientOkW : Int → Except StoreError FileListResponse :=
  fun _ => Except.ok emptyRespW

def clientUnauthW : Int → Except StoreError FileListResponse :=
  fun _ => Except.error StoreError.unauthorized

def fcOneW : FolderContents := { folder_id := 1, cache_ts := 0 }

def fcTwoW : FolderContents := { folder_id := 2, cache_ts := 5 }

def fileCollideW : FileInfo :=
  { file_id := 5, parent_folder_id := 0, name := ['a'], md5 := [],
    size := 0, create_time := 0, update_time := 0 }

def folderCollideW : FolderInfo :=
  { folder_id := 5, parent_folder_id := 0, name := ['b'] }

def fcCollideW : FolderContents :=
  { folder_id := 0, file_children := [fileCollideW],
    folder_children := [folderCollideW], cache_ts := 0 }

def noteNameW : List Char := ['a', '.', 'n', 'o', 't', 'e']

def fiW : FileInfo :=
  { file_id := 3, parent_folder_id := 0, name := noteNameW, md5 := ['h'],
    size := 0, create_time := 0, update_time := 0 }

def md5W : Bytes → List Char := fun b => if b = [1] then ['h'] else ['q']

def parseDocW : Bytes → Notebook := fun _ => ⟨[['X']]⟩

def renderW : Notebook → Int → Bytes := fun _ _ => [7]

def dlOkW : Int → Except StoreError Bytes := fun _ => Except.ok [2]

def dlUnauthW : Int → Except StoreError Bytes :=
  fun _ => Except.error StoreError.unauthorized

def fsLocalW : FileSystem := [([intToChars 0, noteNameW], [1])]

def noteNameC : List Char := ['N', 'o', 't', 'e', '.', 'n', 'o', 't', 'e']

def fiC : FileInfo :=
  { file_id := 4, parent_folder_id := 0, name := noteNameC, md5 := ['m'],
    size := 0, create_time := 0, update_time := 0 }

def parseDocC : Bytes → Notebook :=
  fun b => if b = [2] then ⟨[['Y']]⟩ else ⟨[['X']]⟩

def oldPngPathC : FilePath' :=
  [['0'], ['N', 'o', 't', 'e'],
   ['N', 'o', 't', 'e', '-', '0', '0', '0', '-', 'X', '.', 'p', 'n', 'g']]

def fsOldPngC : FileSystem := [(oldPngPathC, [9])]

def md5zW : Bytes → List Char := fun _ => ['z']

def fsStaleW : FileSystem := [([intToChars 0, noteNameW], [3])]

def fsEmptyMatchW : FileSystem := [([intToChars 0, noteNameW], [])]

def md5ConstHW : Bytes → List Char := fun _ => ['h']

def nfW : NotebookFile :=
  NotebookFile.make parseDocW [1] fiW.name (LocalStore.get_local_file_path fiW)

/-! ## Lemmas: decimal serialization round-trips -/

theorem natToCharsAux_zero (fuel : Nat) : natToCharsAux fuel 0 = [] := by
  cases fuel <;> simp [natToCharsAux]

theorem digitOfChar_charOfDigit {d : Nat} (h : d < 10) :
    digitOfChar (charOfDigit d) = d := by
  interval_cases d <;> decide

theorem isDigit_charOfDigit {d : Nat} (h : d < 10) :
    (charOfDigit d).isDigit = true := by
  interval_cases d <;> decide

theorem natToCharsAux_spec :
    ∀ fuel n, n ≠ 0 → n ≤ fuel →
      natToCharsAux fuel n ≠ [] ∧
      (∀ c ∈ natToCharsAux fuel n, c.isDigit) ∧
      (natToCharsAux fuel n).foldl (fun a c => 10 * a + digitOfChar c) 0
        = n := by
  intro fuel
  induction fuel with
  | zero => intro n h0 hle; omega
  | succ fuel ih =>
    intro n h0 hle
    simp only [natToCharsAux, if_neg h0]
    by_cases hq : n / 10 = 0
    · rw [hq, natToCharsAux_zero]
      have hlt : n % 10 < 10 := Nat.mod_lt _ (by omega)
      have hmod : n % 10 = n := by omega
      refine ⟨by simp, ?_, ?_⟩
      · intro c hc
        rw [List.nil_append, List.mem_singleton] at hc
        exact hc ▸ isDigit_charOfDigit hlt
      · rw [List.nil_append, hmod]
        simp [digitOfChar_charOfDigit (show n < 10 by omega)]
    · have hle2 : n / 10 ≤ fuel := by omega
      obtain ⟨h1, h2, h3⟩ := ih (n / 10) hq hle2
      have hlt : n % 10 < 10 := Nat.mod_lt _ (by omega)
      refine ⟨by simp, ?_, ?_⟩
      · intro c hc
        rcases List.mem_append.1 hc with hc | hc
        · exact h2 c hc
        · rw [List.mem_singleton] at hc
          exact hc ▸ isDigit_charOfDigit hlt
      · rw [List.foldl_append, h3]
        simp [digitOfChar_charOfDigit hlt]
        omega

theorem natToChars_ne_nil (n : Nat) : natToChars n ≠ [] := by
  by_cases h0 : n = 0
  · subst h0; decide
  · simpa [natToChars, h0] using (natToCharsAux_spec n n h0 le_rfl).1

theorem natToChars_digits (n : Nat) : ∀ c ∈ natToChars n, c.isDigit := by
  by_cases h0 : n = 0
  · subst h0; decide
  · simpa [natToChars, h0] using (natToCharsAux_spec n n h0 le_rfl).2.1

theorem pyParseNat_natToChars (n : Nat) :
    pyParseNat (natToChars n) = some n := by
  by_cases h0 : n = 0
  · subst h0; decide
  · obtain ⟨h1, h2, h3⟩ := natToCharsAux_spec n n h0 le_rfl
    unfold natToChars pyParseNat
    rw [if_neg h0]
    rw [if_neg (by simpa [List.isEmpty_iff] using h1)]
    rw [if_pos (List.all_eq_true.2 h2)]
    exact congrArg some h3

theorem pyParseInt_intToChars (i : Int) :
    pyParseInt (intToChars i) = some i := by
  unfold intToChars
  by_cases hneg : i < 0
  · rw [if_pos hneg]
    simp only [pyParseInt, if_pos rfl, pyParseNat_natToChars, Option.map_some]
    refine congrArg some ?_
    show -(i.natAbs : Int) = i
    omega
  · rw [if_neg hneg]
    rcases hl : natToChars i.toNat with _ | ⟨c, rest⟩
    · exact absurd hl (natToChars_ne_nil _)
    · have hcd : c.isDigit := natToChars_digits _ c (by rw [hl]; simp)
      have hc1 : ¬ c = '-' := by intro e; rw [e] at hcd; exact absurd hcd (by decide)
      have hc2 : ¬ c = '+' := by intro e; rw [e] at hcd; exact absurd hcd (by decide)
      simp only [pyParseInt, if_neg hc1, if_neg hc2]
      rw [← hl, pyParseNat_natToChars]
      simp [Int.toNat_of_nonneg (le_of_not_lt hneg)]

/-! ## Lemmas: splitting inverts joining -/

theorem splitFirst_of_not_mem {sep : Char} {a : List Char} (h : sep ∉ a) :
    splitFirst sep a = none := by
  induction a with
  | nil => rfl
  | cons x xs ih =>
    have hx : ¬ x = sep := fun e => h (by rw [← e]; simp)
    simp [splitFirst, hx, ih (fun m => h (List.mem_cons_of_mem x m))]

theorem splitFirst_append_cons {sep : Char} (a r : List Char) (h : sep ∉ a) :
    splitFirst sep (a ++ sep :: r) = some (a, r) := by
  induction a with
  | nil => simp [splitFirst]
  | cons x xs ih =>
    have hx : ¬ x = sep := fun e => h (by rw [← e]; simp)
    simp [splitFirst, hx, ih (fun m => h (List.mem_cons_of_mem x m))]

theorem splitOnChar_of_not_mem {sep : Char} {p : List Char} (h : sep ∉ p) :
    splitOnChar sep p = [p] := by
  induction p with
  | nil => rfl
  | cons x xs ih =>
    have hx : ¬ x = sep := fun e => h (by rw [← e]; simp)
    simp [splitOnChar, hx, ih (fun m => h (List.mem_cons_of_mem x m))]

theorem splitOnChar_append_cons {sep : Char} (p rest : List Char)
    (h : sep ∉ p) :
    splitOnChar sep (p ++ sep :: rest) = p :: splitOnChar sep rest := by
  induction p with
  | nil => simp [splitOnChar]
  | cons x xs ih =>
    have hx : ¬ x = sep := fun e => h (by rw [← e]; simp)
    simp [splitOnChar, hx, ih (fun m => h (List.mem_cons_of_mem x m))]

theorem splitOnChar_joinSep {sep : Char} (l : List (List Char))
    (hne : l ≠ []) (h : ∀ p ∈ l, sep ∉ p) :
    splitOnChar sep (joinSep sep l) = l := by
  induction l with
  | nil => exact absurd rfl hne
  | cons p ps ih =>
    cases ps with
    | nil => simpa [joinSep] using splitOnChar_of_not_mem (h p (by simp))
    | cons q qs =>
      rw [joinSep, splitOnChar_append_cons _ _ (h p (by simp)),
        ih (by simp) (fun r hr => h r (List.mem_cons_of_mem p hr))]

theorem parseIntList_map_intToChars (l : List Int) :
    parseIntList (l.map intToChars) = some l := by
  induction l with
  | nil => rfl
  | cons i is ih => simp [parseIntList, pyParseInt_intToChars, ih]

theorem mem_intToChars {i : Int} {c : Char} (hc : c ∈ intToChars i) :
    c.isDigit ∨ c = '-' := by
  unfold intToChars at hc
  by_cases h : i < 0
  · rw [if_pos h] at hc
    rcases List.mem_cons.1 hc with he | hm
    · exact Or.inr he
    · exact Or.inl (natToChars_digits _ c hm)
  · rw [if_neg h] at hc
    exact Or.inl (natToChars_digits _ c hc)

theorem sep_not_mem_intToChars {sep : Char} (hsep : sep = '/' ∨ sep = ':')
    (i : Int) : sep ∉ intToChars i := by
  intro hm
  rcases mem_intToChars hm with hd | he
  · rcases hsep with h | h <;> rw [h] at hd <;> exact absurd hd (by decide)
  · rcases hsep with h | h <;> rw [h] at he <;> exact absurd he (by decide)

theorem type_of_value (t : SupernoteIdentifierType) :
    SupernoteIdentifierType.of [t.value] = some t := by
  cases t <;> rfl

theorem value_ne_sep {sep : Char} (t : SupernoteIdentifierType)
    (hsep : sep = '/' ∨ sep = ':') : ¬ t.value = sep := by
  rcases hsep with h | h <;> rw [h] <;> cases t <;> decide

/-- C1: for every valid identifier — any account scope free of the
separator, any node type, any non-empty integer path — and each of the
two separator forms (`'/'` for `as_string`/`of`, `':'` for
`encode`/`decode`), decoding the encoded string returns the identifier
unchanged. -/
theorem identifier_roundtrip (x : SupernoteIdentifier) (sep : Char)
    (hsep : sep = '/' ∨ sep = ':')
    (hacct : sep ∉ x.config_entry_id)
    (hpath : x.media_id_path ≠ []) :
    SupernoteIdentifier.of (x.as_string sep) sep = some x := by
  have hjoin : splitOnChar sep (joinSep sep (x.media_id_path.map intToChars))
      = x.media_id_path.map intToChars := by
    refine splitOnChar_joinSep _ (by simpa using hpath) ?_
    intro p hp
    obtain ⟨i, _, rfl⟩ := List.mem_map.1 hp
    exact sep_not_mem_intToChars hsep i
  have htag : ¬ x.id_type.value = sep := value_ne_sep _ hsep
  have hsplit : splitMax2 sep (x.as_string sep)
      = [x.config_entry_id, [x.id_type.value],
         joinSep sep (x.media_id_path.map intToChars)] := by
    unfold SupernoteIdentifier.as_string splitMax2
    rw [splitFirst_append_cons _ _ hacct]
    simp [splitFirst, htag]
  unfold SupernoteIdentifier.of
  rw [hsplit]
  simp only [hjoin, parseIntList_map_intToChars, type_of_value]

/-- Concrete instance of C1: the hypotheses of `identifier_roundtrip`
hold and the round-trip succeeds at a small folder identifier. -/
theorem identifier_roundtrip_witness :
    (('/' : Char) = '/' ∨ ('/' : Char) = ':') ∧
    ('/' : Char) ∉ (['a'] : List Char) ∧
    ([(0 : Int)] ≠ ([] : List Int)) ∧
    SupernoteIdentifier.of
      (SupernoteIdentifier.as_string
        ⟨['a'], SupernoteIdentifierType.FOLDER, [0]⟩ '/') '/'
      = some ⟨['a'], SupernoteIdentifierType.FOLDER, [0]⟩ :=
  ⟨Or.inl rfl, by decide, by decide,
    identifier_roundtrip ⟨['a'], SupernoteIdentifierType.FOLDER, [0]⟩ '/'
      (Or.inl rfl) (by decide) (by decide)⟩

/-! ## C2: decode failure conditions -/

theorem parseIntList_eq_none_iff (l : List (List Char)) :
    parseIntList l = none ↔ ∃ p ∈ l, pyParseInt p = none := by
  induction l with
  | nil => simp [parseIntList]
  | cons p rest ih =>
    simp only [parseIntList]
    rcases h : pyParseInt p with _ | i
    · simp [h]
    · rcases h2 : parseIntList rest with _ | is
      · simp [h, h2, ← ih]
      · simp [h, h2, ← ih]

/-- C2 (amended): `SupernoteIdentifier.of` fails exactly when the
top-level field count differs from 3, the node-type tag is
unrecognized, or some path segment is not a valid integer.  No
type-dependent arity condition is checked. -/
theorem of_eq_none_iff (s : List Char) (sep : Char) :
    SupernoteIdentifier.of s sep = none ↔
      (splitMax2 sep s).length ≠ 3 ∨
      (∃ a t rest, splitMax2 sep s = [a, t, rest] ∧
        (SupernoteIdentifierType.of t = none ∨
         ∃ p ∈ splitOnChar sep rest, pyParseInt p = none)) := by
  rcases hs : splitMax2 sep s with _ | ⟨a, _ | ⟨b, _ | ⟨c, _ | ⟨d, tl⟩⟩⟩⟩
  · exact iff_of_true (by simp [SupernoteIdentifier.of, hs])
      (Or.inl (by simp [hs]))
  · exact iff_of_true (by simp [SupernoteIdentifier.of, hs])
      (Or.inl (by simp [hs]))
  · exact iff_of_true (by simp [SupernoteIdentifier.of, hs])
      (Or.inl (by simp [hs]))
  · rcases h1 : parseIntList (splitOnChar sep c) with _ | path
    · exact iff_of_true (by simp [SupernoteIdentifier.of, hs, h1])
        (Or.inr ⟨a, b, c, rfl, Or.inr ((parseIntList_eq_none_iff _).1 h1)⟩)
    · rcases h2 : SupernoteIdentifierType.of b with _ | ty
      · exact iff_of_true (by simp [SupernoteIdentifier.of, hs, h1, h2])
          (Or.inr ⟨a, b, c, rfl, Or.inl h2⟩)
      · have hof : SupernoteIdentifier.of s sep
            = some ⟨a, ty, path⟩ := by
          simp [SupernoteIdentifier.of, hs, h1, h2]
        refine iff_of_false (by simp [hof]) ?_
        rintro (hlen | ⟨a1, t1, rest1, heq, hbad⟩)
        · simp at hlen
        · have h4 : a = a1 ∧ b = t1 ∧ c = rest1 := by simpa using heq
          obtain ⟨rfl, rfl, rfl⟩ := h4
          rcases hbad with hb | hb
          · rw [h2] at hb; cases hb
          · exact absurd ((parseIntList_eq_none_iff _).2 hb) (by simp [h1])
  · exact iff_of_true (by simp [SupernoteIdentifier.of, hs])
      (Or.inl (by simp))

/-- The type-dependent path arity asserted by the claim (FOLDER: length
at least 1; NOTE_FILE: exactly 2; NOTE_PAGE: exactly 3). -/
def claimArityOk : SupernoteIdentifierType → Nat → Bool
  | SupernoteIdentifierType.FOLDER, n => decide (1 ≤ n)
  | SupernoteIdentifierType.NOTE_FILE, n => decide (n = 2)
  | SupernoteIdentifierType.NOTE_PAGE, n => decide (n = 3)

/-- C2 counterexample: `"a:n:1"` carries the NOTE_FILE tag with a path
of length 1 — an arity the claim says decode must reject — yet decode
succeeds. -/
theorem of_arity_counterexample :
    SupernoteIdentifier.of ['a', ':', 'n', ':', '1'] ':'
        = some ⟨['a'], SupernoteIdentifierType.NOTE_FILE, [1]⟩ ∧
      claimArityOk SupernoteIdentifierType.NOTE_FILE 1 = false := by
  decide

/-! ## Lemmas: dict operations -/

theorem dictGet_dictInsert {κ α : Type} [DecidableEq κ] (k k1 : κ) (v : α)
    (d : List (κ × α)) :
    dictGet k1 (dictInsert k v d)
      = if k1 = k then some v else dictGet k1 d := by
  induction d with
  | nil =>
    by_cases h : k1 = k
    · subst h; simp [dictInsert, dictGet]
    · have hk : ¬ k = k1 := fun e => h e.symm
      simp [dictInsert, dictGet, h, hk]
  | cons p rest ih =>
    obtain ⟨k2, v2⟩ := p
    by_cases h2 : k2 = k
    · subst h2
      by_cases h1 : k1 = k2
      · subst h1; simp [dictInsert, dictGet]
      · have hk : ¬ k2 = k1 := fun e => h1 e.symm
        simp [dictInsert, dictGet, h1, hk]
    · by_cases h1 : k1 = k2
      · subst h1
        have hk : ¬ k1 = k := fun e => h2 e
        simp [dictInsert, dictGet, h2, hk]
      · have hk : ¬ k2 = k1 := fun e => h1 e.symm
        simp [dictInsert, dictGet, h2, h1, hk, ih]

theorem dictGet_dictRemove {κ α : Type} [DecidableEq κ] (k k1 : κ)
    (d : List (κ × α)) :
    dictGet k1 (dictRemove k d)
      = if k1 = k then none else dictGet k1 d := by
  induction d with
  | nil => by_cases h : k1 = k <;> simp [dictRemove, dictGet, h]
  | cons p rest ih =>
    obtain ⟨k2, v2⟩ := p
    by_cases h2 : k2 = k
    · subst h2
      rw [show dictRemove k2 ((k2, v2) :: rest) = dictRemove k2 rest from by
        simp [dictRemove, List.filter_cons], ih]
      by_cases h1 : k1 = k2
      · simp [h1]
      · have hk : ¬ k2 = k1 := fun e => h1 e.symm
        simp [dictGet, h1, hk]
    · rw [show dictRemove k ((k2, v2) :: rest)
          = (k2, v2) :: dictRemove k rest from by
        simp [dictRemove, List.filter_cons, h2]]
      by_cases h1 : k1 = k2
      · subst h1
        have hk : ¬ k1 = k := fun e => h2 e
        simp [dictGet, hk]
      · have hk : ¬ k2 = k1 := fun e => h1 e.symm
        simp [dictGet, h1, hk, ih]

/-! ## C10: the metadata upsert preserves other keys -/

/-- C10: `set_folder_contents` is a frame-preserving upsert — every
entry under a key other than `folder.folder_id` is unchanged, and a
subsequent `get_folder_contents` of `folder.folder_id` returns exactly
the stored value. -/
theorem set_folder_contents_upsert (data : MetadataStoreData)
    (folder : FolderContents) :
    (∀ k, k ≠ folder.folder_id →
      MetadataStore.get_folder_contents
          (MetadataStore.set_folder_contents data folder) k
        = MetadataStore.get_folder_contents data k) ∧
    MetadataStore.get_folder_contents
        (MetadataStore.set_folder_contents data folder) folder.folder_id
      = some folder := by
  constructor
  · intro k hk
    unfold MetadataStore.get_folder_contents MetadataStore.set_folder_contents
    rw [dictGet_dictInsert]
    simp [hk]
  · unfold MetadataStore.get_folder_contents MetadataStore.set_folder_contents
    rw [dictGet_dictInsert]
    simp

/-- Concrete instance of C10: storing contents for folder 2 leaves the
entry for folder 1 unchanged and is read back intact. -/
theorem set_folder_contents_upsert_witness :
    MetadataStore.get_folder_contents
        (MetadataStore.set_folder_contents [(1, fcOneW)] fcTwoW) 1
      = MetadataStore.get_folder_contents [(1, fcOneW)] 1 ∧
    MetadataStore.get_folder_contents
        (MetadataStore.set_folder_contents [(1, fcOneW)] fcTwoW) 2
      = some fcTwoW :=
  ⟨(set_folder_contents_upsert [(1, fcOneW)] fcTwoW).1 1 (by decide),
   (set_folder_contents_upsert [(1, fcOneW)] fcTwoW).2⟩

/-! ## C4: id collisions between file and folder children -/

theorem dictGet_foldl_folders_not_mem (l : List FolderInfo)
    (d : List (Int × ChildInfo)) (k : Int)
    (h : ∀ g ∈ l, g.folder_id ≠ k) :
    dictGet k (l.foldl
      (fun d g => dictInsert g.folder_id (ChildInfo.folder g) d) d)
      = dictGet k d := by
  induction l generalizing d with
  | nil => rfl
  | cons g rest ih =>
    have hne : ¬ k = g.folder_id :=
      fun e => h g (List.mem_cons_self g rest) e.symm
    rw [List.foldl_cons,
      ih _ (fun g1 hg1 => h g1 (List.mem_cons_of_mem g hg1)),
      dictGet_dictInsert, if_neg hne]

theorem dictGet_foldl_folders (l : List FolderInfo)
    (d : List (Int × ChildInfo)) (k : Int)
    (h : ∃ g ∈ l, g.folder_id = k) :
    ∃ g, g ∈ l ∧ g.folder_id = k ∧
      dictGet k (l.foldl
        (fun d g => dictInsert g.folder_id (ChildInfo.folder g) d) d)
        = some (ChildInfo.folder g) := by
  induction l generalizing d with
  | nil => simp at h
  | cons g rest ih =>
    rw [List.foldl_cons]
    by_cases hr : ∃ g1 ∈ rest, g1.folder_id = k
    · obtain ⟨g1, hg1, hk1, hget⟩ := ih _ hr
      exact ⟨g1, List.mem_cons_of_mem g hg1, hk1, hget⟩
    · have hgk : g.folder_id = k := by
        obtain ⟨g0, hg0, hk0⟩ := h
        rcases List.mem_cons.1 hg0 with e | hmem
        · exact e ▸ hk0
        · exact absurd ⟨g0, hmem, hk0⟩ hr
      refine ⟨g, List.mem_cons_self g rest, hgk, ?_⟩
      rw [dictGet_foldl_folders_not_mem rest _ k
          (fun g1 hg1 e => hr ⟨g1, hg1, e⟩),
        dictGet_dictInsert, if_pos hgk.symm]

/-- C4 (amended): when a file child and a folder child share an id, the
`children` dict silently resolves the collision in favour of the folder
entry — no failure is reported and the file entry is unreachable under
that key. -/
theorem children_collision_folder_wins (fc : FolderContents) (k : Int)
    (h : ∃ g ∈ fc.folder_children, g.folder_id = k) :
    ∃ g, g ∈ fc.folder_children ∧ g.folder_id = k ∧
      dictGet k fc.children = some (ChildInfo.folder g) := by
  unfold FolderContents.children
  exact dictGet_foldl_folders _ _ _ h

/-- Concrete instance of the amended C4 at the colliding id 5. -/
theorem children_collision_folder_wins_witness :
    ∃ g, g ∈ fcCollideW.folder_children ∧ g.folder_id = 5 ∧
      dictGet 5 fcCollideW.children = some (ChildInfo.folder g) :=
  children_collision_folder_wins fcCollideW 5
    ⟨folderCollideW, by decide, by decide⟩

/-- C4 counterexample: a listing with a file entry and a folder entry
both carrying id 5 produces `children` with a single entry (the
folder); the file entry is dropped with no data-integrity failure —
`children` is a total function with no error outcome. -/
theorem children_collision_counterexample :
    fcCollideW.children = [(5, ChildInfo.folder folderCollideW)] ∧
    fcCollideW.file_children.length + fcCollideW.folder_children.length
      = 2 := by
  constructor <;> decide

/-! ## C3: folder-listing cache behaviour -/

theorem foldl_buildFolderStep_cache_ts (l : List File) (fc : FolderContents) :
    (l.foldl buildFolderStep fc).cache_ts = fc.cache_ts := by
  induction l generalizing fc with
  | nil => rfl
  | cons f rest ih =>
    rw [List.foldl_cons, ih]
    unfold buildFolderStep
    split <;> rfl

theorem buildFolderContents_cache_ts (folder_id : Int) (now : Nat)
    (resp : FileListResponse) :
    (buildFolderContents folder_id now resp).cache_ts = now := by
  unfold buildFolderContents
  rw [foldl_buildFolderStep_cache_ts]

/-- C3: a cached entry whose age is at most the 1-hour TTL is returned
unchanged with zero remote listing calls and no cache write; an absent
or older-than-TTL entry causes exactly one remote listing call, the
cache entry is overwritten with a fresh `FolderContents` timestamped
`now`, and that fresh value is returned. -/
theorem get_folder_contents_cache_policy
    (client : Int → Except StoreError FileListResponse)
    (cache : MetadataStoreData) (now : Nat) (folder_id : Int) :
    (∀ fc, MetadataStore.get_folder_contents cache folder_id = some fc →
      now - fc.cache_ts ≤ MAX_CACHE_LIFETIME →
      LocalStore.get_folder_contents client cache now folder_id
        = ⟨Except.ok fc, cache, 0, 0⟩) ∧
    (∀ resp, client folder_id = Except.ok resp →
      (MetadataStore.get_folder_contents cache folder_id = none ∨
       ∃ fc, MetadataStore.get_folder_contents cache folder_id = some fc ∧
         MAX_CACHE_LIFETIME < now - fc.cache_ts) →
      LocalStore.get_folder_contents client cache now folder_id
        = ⟨Except.ok (buildFolderContents folder_id now resp),
           MetadataStore.set_folder_contents cache
             (buildFolderContents folder_id now resp), 1, 0⟩ ∧
      (buildFolderContents folder_id now resp).cache_ts = now) := by
  constructor
  · intro fc hfc hfresh
    have hexp : fc.is_expired now = false := by
      simp [MAX_CACHE_LIFETIME] at hfresh
      simp [FolderContents.is_expired, MAX_CACHE_LIFETIME]
      omega
    simp [LocalStore.get_folder_contents, hfc, hexp]
  · intro resp hresp hmiss
    refine ⟨?_, buildFolderContents_cache_ts folder_id now resp⟩
    rcases hmiss with hnone | ⟨fc, hfc, hold⟩
    · simp [LocalStore.get_folder_contents, hnone, hresp]
    · have hexp : fc.is_expired now = true := by
        simp [MAX_CACHE_LIFETIME] at hold
        simp [FolderContents.is_expired, MAX_CACHE_LIFETIME]
        omega
      simp [LocalStore.get_folder_contents, hfc, hexp, hresp]

/-- Concrete instance of C3: a 100-second-old entry is served from the
cache with no remote call; an empty cache causes one remote call whose
rebuilt result is stored stamped `now`. -/
theorem get_folder_contents_cache_policy_witness :
    LocalStore.get_folder_contents clientOkW cacheHitW 200 7
      = ⟨Except.ok fcFreshW, cacheHitW, 0, 0⟩ ∧
    (LocalStore.get_folder_contents clientOkW [] 200 7
        = ⟨Except.ok (buildFolderContents 7 200 emptyRespW),
           MetadataStore.set_folder_contents []
             (buildFolderContents 7 200 emptyRespW), 1, 0⟩ ∧
     (buildFolderContents 7 200 emptyRespW).cache_ts = 200) :=
  ⟨(get_folder_contents_cache_policy clientOkW cacheHitW 200 7).1 fcFreshW
      (by decide) (by decide),
   (get_folder_contents_cache_policy clientOkW [] 200 7).2 emptyRespW rfl
      (Or.inl rfl)⟩

/-! ## C7: Unauthorized triggers one reauth and re-raises -/

/-- C7: when the remote client raises `UnauthorizedException`, both the
folder-listing path and the file-download path invoke the
reauthentication callback exactly once, make exactly one remote
attempt (no retry), and re-raise the same error instead of returning a
default value. -/
theorem unauthorized_reauth_once
    (client : Int → Except StoreError FileListResponse)
    (cache : MetadataStoreData) (now : Nat) (folder_id : Int)
    (md5 : Bytes → List Char) (parseDoc : Bytes → Notebook)
    (dl : Int → Except StoreError Bytes) (fs : FileSystem) (fi : FileInfo) :
    (client folder_id = Except.error StoreError.unauthorized →
      (MetadataStore.get_folder_contents cache folder_id = none ∨
       ∃ fc, MetadataStore.get_folder_contents cache folder_id = some fc ∧
         MAX_CACHE_LIFETIME < now - fc.cache_ts) →
      LocalStore.get_folder_contents client cache now folder_id
        = ⟨Except.error StoreError.unauthorized, cache, 1, 1⟩) ∧
    (dl fi.file_id = Except.error StoreError.unauthorized →
      NOTE_SUFFIX.isSuffixOf fi.name = true →
      (∀ c, dictGet (LocalStore.get_local_file_path fi) fs = some c →
        md5 c ≠ fi.md5) →
      (LocalStore.get_notebook_file md5 parseDoc dl fs fi).result
          = Except.error StoreError.unauthorized ∧
      (LocalStore.get_notebook_file md5 parseDoc dl fs fi).download_calls
          = 1 ∧
      (LocalStore.get_notebook_file md5 parseDoc dl fs fi).reauth_calls
          = 1) := by
  constructor
  · intro herr hmiss
    rcases hmiss with hnone | ⟨fc, hfc, hold⟩
    · simp [LocalStore.get_folder_contents, hnone, herr]
    · have hexp : fc.is_expired now = true := by
        simp [MAX_CACHE_LIFETIME] at hold
        simp [FolderContents.is_expired, MAX_CACHE_LIFETIME]
        omega
      simp [LocalStore.get_folder_contents, hfc, hexp, herr]
  · intro herr hnote hmiss
    unfold LocalStore.get_notebook_file
    rw [if_neg (by simp [hnote])]
    rcases hl : dictGet (LocalStore.get_local_file_path fi) fs with _ | c
    · simp [hl, herr, LocalStore.downloadNotebook]
    · have hne := hmiss c hl
      simp [hl, herr, hne, LocalStore.downloadNotebook]

/-- Concrete instance of C7: an Unauthorized listing over an empty
cache and an Unauthorized download with no local copy each reauth once
and re-raise. -/
theorem unauthorized_reauth_once_witness :
    LocalStore.get_folder_contents clientUnauthW [] 0 7
      = ⟨Except.error StoreError.unauthorized, [], 1, 1⟩ ∧
    ((LocalStore.get_notebook_file md5W parseDocW dlUnauthW [] fiW).result
        = Except.error StoreError.unauthorized ∧
     (LocalStore.get_notebook_file md5W parseDocW dlUnauthW []
        fiW).download_calls = 1 ∧
     (LocalStore.get_notebook_file md5W parseDocW dlUnauthW []
        fiW).reauth_calls = 1) :=
  ⟨(unauthorized_reauth_once clientUnauthW [] 0 7 md5W parseDocW dlUnauthW
      [] fiW).1 rfl (Or.inl rfl),
   (unauthorized_reauth_once clientUnauthW [] 0 7 md5W parseDocW dlUnauthW
      [] fiW).2 rfl (by decide) (fun c hc => Option.noConfusion hc)⟩

/-! ## Lemmas: the rendered-page cache -/

theorem local_png_path_shape (nf : NotebookFile) (i : Int) (q : FilePath')
    (h : nf.local_png_path i = Except.ok q) :
    q = nf.local_file_path.dropLast ++
      [pathStem (nf.local_file_path.getLastD []),
       withSuffixPng (nf.pages.getD i.toNat [])] := by
  unfold NotebookFile.local_png_path at h
  split at h
  · cases h
  · cases h; rfl

theorem clear_step_preserves_none (nf : NotebookFile) (l : List Nat)
    (fs : FileSystem) (p : FilePath') (h : dictGet p fs = none) :
    dictGet p (l.foldl (clearPngStep nf) fs) = none := by
  induction l generalizing fs with
  | nil => exact h
  | cons i rest ih =>
    rw [List.foldl_cons]
    apply ih
    rcases hq : nf.local_png_path (i : Int) with e | q
    · simpa only [clearPngStep, hq] using h
    · simp only [clearPngStep, hq]
      rw [dictGet_dictRemove]
      split
      · rfl
      · exact h

theorem dictGet_clear_png_cache_cleared (nf : NotebookFile)
    (fs : FileSystem) (i : Nat)
    (hi : i ∈ List.range nf.notebook.pageIds.length) (q : FilePath')
    (hq : nf.local_png_path (i : Int) = Except.ok q) :
    dictGet q (nf.clear_png_cache fs) = none := by
  unfold NotebookFile.clear_png_cache
  generalize List.range nf.notebook.pageIds.length = l at hi
  induction l generalizing fs with
  | nil => cases hi
  | cons j rest ih =>
    rw [List.foldl_cons]
    rcases List.mem_cons.1 hi with e | hmem
    · subst e
      rw [show clearPngStep nf fs i = dictRemove q fs from by
        simp only [clearPngStep, hq]]
      apply clear_step_preserves_none
      rw [dictGet_dictRemove]
      simp
    · exact ih _ hmem

theorem dictGet_clear_png_cache_other (nf : NotebookFile) (fs : FileSystem)
    (p : FilePath')
    (hp : ∀ q, p ≠ nf.local_file_path.dropLast ++
      [pathStem (nf.local_file_path.getLastD []), q]) :
    dictGet p (nf.clear_png_cache fs) = dictGet p fs := by
  unfold NotebookFile.clear_png_cache
  generalize List.range nf.notebook.pageIds.length = l
  induction l generalizing fs with
  | nil => rfl
  | cons i rest ih =>
    rw [List.foldl_cons, ih]
    rcases hq : nf.local_png_path (i : Int) with e | q
    · simp only [clearPngStep, hq]
    · simp only [clearPngStep, hq]
      rw [dictGet_dictRemove,
        if_neg (local_png_path_shape nf (i : Int) q hq ▸ hp _)]

/-! ## C5: local copy reuse and invalidation -/

theorem note_path_ne_png_path (fi : FileInfo) (q : List Char) :
    LocalStore.get_local_file_path fi ≠
      (LocalStore.get_local_file_path fi).dropLast ++
        [pathStem ((LocalStore.get_local_file_path fi).getLastD []), q] := by
  intro e
  have hlen := congrArg List.length e
  simp [LocalStore.get_local_file_path] at hlen

/-- C5 (amended): a NON-EMPTY local copy whose md5 matches the
`FileInfo` hash is served with zero remote download calls, both by
`_get_notebook_file` and by `get_note_page_names`; an empty local copy
is falsy under Python's `if contents:` and is re-downloaded even when
its hash matches (see the counterexample); a mismatching local copy is
deleted (observable when the subsequent download fails) and on a
successful download the fresh bytes are written at the local path,
with exactly one download call. -/
theorem local_copy_reuse_and_invalidation (md5 : Bytes → List Char)
    (parseDoc : Bytes → Notebook)
    (dl : Int → Except StoreError Bytes) (fs : FileSystem) (fi : FileInfo)
    (contents : Bytes)
    (hnote : NOTE_SUFFIX.isSuffixOf fi.name = true)
    (hlocal : dictGet (LocalStore.get_local_file_path fi) fs
      = some contents) :
    (contents ≠ [] → md5 contents = fi.md5 →
      LocalStore.get_notebook_file md5 parseDoc dl fs fi
        = ⟨Except.ok (NotebookFile.make parseDoc contents fi.name
            (LocalStore.get_local_file_path fi)), fs, 0, 0⟩ ∧
      (LocalStore.get_note_page_names md5 parseDoc dl fs
        fi).download_calls = 0) ∧
    (md5 contents ≠ fi.md5 →
      (∀ e, dl fi.file_id = Except.error e →
        dictGet (LocalStore.get_local_file_path fi)
          (LocalStore.get_notebook_file md5 parseDoc dl fs fi).fs
          = none) ∧
      (∀ fresh, dl fi.file_id = Except.ok fresh →
        (LocalStore.get_notebook_file md5 parseDoc dl fs
          fi).download_calls = 1 ∧
        dictGet (LocalStore.get_local_file_path fi)
          (LocalStore.get_notebook_file md5 parseDoc dl fs fi).fs
          = some fresh)) := by
  constructor
  · intro hne hmatch
    have hie : contents.isEmpty = false := by
      cases contents
      · exact absurd rfl hne
      · rfl
    have hnb : LocalStore.get_notebook_file md5 parseDoc dl fs fi
        = ⟨Except.ok (NotebookFile.make parseDoc contents fi.name
            (LocalStore.get_local_file_path fi)), fs, 0, 0⟩ := by
      unfold LocalStore.get_notebook_file
      rw [if_neg (by simp [hnote])]
      simp [hlocal, hmatch, hie]
    refine ⟨hnb, ?_⟩
    unfold LocalStore.get_note_page_names
    rw [hnb]
  · intro hmis
    have hnb : ∀ out,
        dl fi.file_id = out →
        LocalStore.get_notebook_file md5 parseDoc dl fs fi
          = (match out with
            | Except.error e =>
              ⟨Except.error e,
               dictRemove (LocalStore.get_local_file_path fi) fs, 1,
               if e = StoreError.unauthorized then 1 else 0⟩
            | Except.ok fresh =>
              ⟨Except.ok (NotebookFile.make parseDoc fresh fi.name
                  (LocalStore.get_local_file_path fi)),
               (NotebookFile.make parseDoc fresh fi.name
                  (LocalStore.get_local_file_path fi)).clear_png_cache
                 (dictInsert (LocalStore.get_local_file_path fi) fresh
                   (dictRemove (LocalStore.get_local_file_path fi) fs)),
               1, 0⟩) := by
      intro out hout
      unfold LocalStore.get_notebook_file
      rw [if_neg (by simp [hnote])]
      rcases out with e | fresh <;>
        simp [hlocal, hmis, hout, LocalStore.downloadNotebook]
    constructor
    · intro e he
      rw [hnb _ he]
      rw [show (⟨Except.error e,
          dictRemove (LocalStore.get_local_file_path fi) fs, 1,
          if e = StoreError.unauthorized then 1 else 0⟩ :
          NotebookResult).fs
        = dictRemove (LocalStore.get_local_file_path fi) fs from rfl]
      rw [dictGet_dictRemove]
      simp
    · intro fresh hfresh
      rw [hnb _ hfresh]
      refine ⟨rfl, ?_⟩
      rw [show (⟨Except.ok (NotebookFile.make parseDoc fresh fi.name
            (LocalStore.get_local_file_path fi)),
          (NotebookFile.make parseDoc fresh fi.name
            (LocalStore.get_local_file_path fi)).clear_png_cache
            (dictInsert (LocalStore.get_local_file_path fi) fresh
              (dictRemove (LocalStore.get_local_file_path fi) fs)),
          1, 0⟩ : NotebookResult).fs
        = (NotebookFile.make parseDoc fresh fi.name
            (LocalStore.get_local_file_path fi)).clear_png_cache
            (dictInsert (LocalStore.get_local_file_path fi) fresh
              (dictRemove (LocalStore.get_local_file_path fi) fs))
        from rfl]
      rw [dictGet_clear_png_cache_other _ _ _
        (fun q => note_path_ne_png_path fi q)]
      rw [dictGet_dictInsert]
      simp

/-- Concrete instance of C5: the matching copy `[1]` is reused with no
download; the stale copy `[3]` is gone after a failing download, and a
successful download leaves the fresh bytes `[2]` at the local path. -/
theorem local_copy_reuse_and_invalidation_witness :
    (LocalStore.get_notebook_file md5W parseDocW dlOkW fsLocalW fiW
        = ⟨Except.ok (NotebookFile.make parseDocW [1] fiW.name
            (LocalStore.get_local_file_path fiW)), fsLocalW, 0, 0⟩ ∧
      (LocalStore.get_note_page_names md5W parseDocW dlOkW fsLocalW
        fiW).download_calls = 0) ∧
    dictGet (LocalStore.get_local_file_path fiW)
      (LocalStore.get_notebook_file md5W parseDocW dlUnauthW fsStaleW
        fiW).fs = none ∧
    ((LocalStore.get_notebook_file md5W parseDocW dlOkW fsStaleW
        fiW).download_calls = 1 ∧
     dictGet (LocalStore.get_local_file_path fiW)
       (LocalStore.get_notebook_file md5W parseDocW dlOkW fsStaleW
         fiW).fs = some [2]) :=
  ⟨(local_copy_reuse_and_invalidation md5W parseDocW dlOkW fsLocalW fiW [1]
      (by decide) (by decide)).1 (by decide) (by decide),
   ((local_copy_reuse_and_invalidation md5W parseDocW dlUnauthW fsStaleW
      fiW [3] (by decide) (by decide)).2 (by decide)).1
     StoreError.unauthorized rfl,
   ((local_copy_reuse_and_invalidation md5W parseDocW dlOkW fsStaleW fiW
      [3] (by decide) (by decide)).2 (by decide)).2 [2] rfl⟩

/-- C5 counterexample: a local copy that exists with EMPTY contents and
whose computed md5 equals `file_info.md5` is nevertheless
re-downloaded (one download call) — Python's `if contents:` at
store.py line 190 is false for the empty byte string — contradicting
the claimed unconditional zero-download reuse. -/
theorem empty_matching_local_copy_redownloaded :
    dictGet (LocalStore.get_local_file_path fiW) fsEmptyMatchW
      = some [] ∧
    md5ConstHW [] = fiW.md5 ∧
    (LocalStore.get_notebook_file md5ConstHW parseDocW dlOkW fsEmptyMatchW
      fiW).download_calls = 1 :=
  ⟨rfl, rfl, rfl⟩

theorem downloadNotebook_ok (parseDoc : Bytes → Notebook)
    (dl : Int → Except StoreError Bytes) (fs1 : FileSystem) (fi : FileInfo)
    (fresh : Bytes) (hdl : dl fi.file_id = Except.ok fresh) :
    LocalStore.downloadNotebook parseDoc dl fs1 fi
      = ⟨Except.ok (NotebookFile.make parseDoc fresh fi.name
          (LocalStore.get_local_file_path fi)),
         (NotebookFile.make parseDoc fresh fi.name
           (LocalStore.get_local_file_path fi)).clear_png_cache
           (dictInsert (LocalStore.get_local_file_path fi) fresh fs1),
         1, 0⟩ := by
  unfold LocalStore.downloadNotebook
  simp [hdl]

/-! ## C9: a download hash mismatch is tolerated -/

/-- C9: when freshly downloaded bytes hash differently from the
caller-supplied `md5`, the operation does not fail: the mismatch is
only logged, the fetched bytes are written at the local path, and the
returned notebook is built from the fetched bytes. -/
theorem download_hash_mismatch_tolerated (md5 : Bytes → List Char)
    (parseDoc : Bytes → Notebook)
    (dl : Int → Except StoreError Bytes) (fs : FileSystem) (fi : FileInfo)
    (hnote : NOTE_SUFFIX.isSuffixOf fi.name = true)
    (hmiss : ∀ c, dictGet (LocalStore.get_local_file_path fi) fs = some c →
      md5 c ≠ fi.md5)
    (fresh : Bytes) (hdl : dl fi.file_id = Except.ok fresh)
    (_hhash : md5 fresh ≠ fi.md5) :
    (LocalStore.get_notebook_file md5 parseDoc dl fs fi).result
      = Except.ok (NotebookFile.make parseDoc fresh fi.name
        (LocalStore.get_local_file_path fi)) ∧
    dictGet (LocalStore.get_local_file_path fi)
      (LocalStore.get_notebook_file md5 parseDoc dl fs fi).fs
      = some fresh := by
  have key : ∀ fs1 : FileSystem,
      dictGet (LocalStore.get_local_file_path fi)
        ((NotebookFile.make parseDoc fresh fi.name
          (LocalStore.get_local_file_path fi)).clear_png_cache
          (dictInsert (LocalStore.get_local_file_path fi) fresh fs1))
        = some fresh := by
    intro fs1
    rw [dictGet_clear_png_cache_other _ _ _
      (fun q => note_path_ne_png_path fi q)]
    rw [dictGet_dictInsert]
    simp
  unfold LocalStore.get_notebook_file
  rw [if_neg (by simp [hnote])]
  rcases hl : dictGet (LocalStore.get_local_file_path fi) fs with _ | c
  · simp only [hl]
    rw [downloadNotebook_ok parseDoc dl fs fi fresh hdl]
    exact ⟨rfl, key fs⟩
  · have hne := hmiss c hl
    simp only [hl, if_neg hne]
    rw [downloadNotebook_ok parseDoc dl _ fi fresh hdl]
    exact ⟨rfl, key _⟩

/-- Concrete instance of C9: the download returns `[2]`, whose hash
`"q"` differs from the stated `"h"`; the call still succeeds and `[2]`
is on disk. -/
theorem download_hash_mismatch_tolerated_witness :
    (LocalStore.get_notebook_file md5W parseDocW dlOkW [] fiW).result
      = Except.ok (NotebookFile.make parseDocW [2] fiW.name
        (LocalStore.get_local_file_path fiW)) ∧
    dictGet (LocalStore.get_local_file_path fiW)
      (LocalStore.get_notebook_file md5W parseDocW dlOkW [] fiW).fs
      = some [2] :=
  download_hash_mismatch_tolerated md5W parseDocW dlOkW [] fiW
    (by decide) (fun c hc => Option.noConfusion hc) [2] rfl (by decide)

/-! ## C6: clearing the rendered-page cache on fresh download -/

/-- C6 (amended): whenever `_get_notebook_file` downloads fresh bytes
(no usable local copy), every rendered-page path derived from the NEW
notebook is absent from disk afterwards.  Page images of the previous
document whose names do not coincide with a new page name are NOT
deleted — see the counterexample. -/
theorem fresh_download_clears_new_page_paths (md5 : Bytes → List Char)
    (parseDoc : Bytes → Notebook)
    (dl : Int → Except StoreError Bytes) (fs : FileSystem) (fi : FileInfo)
    (hnote : NOTE_SUFFIX.isSuffixOf fi.name = true)
    (hmiss : ∀ c, dictGet (LocalStore.get_local_file_path fi) fs = some c →
      md5 c ≠ fi.md5)
    (fresh : Bytes) (hdl : dl fi.file_id = Except.ok fresh) :
    (LocalStore.get_notebook_file md5 parseDoc dl fs fi).result
      = Except.ok (NotebookFile.make parseDoc fresh fi.name
        (LocalStore.get_local_file_path fi)) ∧
    ∀ i : Nat, i < (parseDoc fresh).pageIds.length →
      ∀ q, (NotebookFile.make parseDoc fresh fi.name
          (LocalStore.get_local_file_path fi)).local_png_path (i : Int)
          = Except.ok q →
        dictGet q (LocalStore.get_notebook_file md5 parseDoc dl fs fi).fs
          = none := by
  unfold LocalStore.get_notebook_file
  rw [if_neg (by simp [hnote])]
  rcases hl : dictGet (LocalStore.get_local_file_path fi) fs with _ | c
  · simp only [hl]
    rw [downloadNotebook_ok parseDoc dl fs fi fresh hdl]
    refine ⟨rfl, ?_⟩
    intro i hi q hq
    exact dictGet_clear_png_cache_cleared _ _ i (List.mem_range.2 hi) q hq
  · have hne := hmiss c hl
    simp only [hl, if_neg hne]
    rw [downloadNotebook_ok parseDoc dl _ fi fresh hdl]
    refine ⟨rfl, ?_⟩
    intro i hi q hq
    exact dictGet_clear_png_cache_cleared _ _ i (List.mem_range.2 hi) q hq

/-- Concrete instance of the amended C6: after downloading the new
document (page id Y), the new page image path "Note-000-Y.png" is
absent. -/
theorem fresh_download_clears_new_page_paths_witness :
    (LocalStore.get_notebook_file md5zW parseDocC dlOkW fsOldPngC
        fiC).result
      = Except.ok (NotebookFile.make parseDocC [2] fiC.name
        (LocalStore.get_local_file_path fiC)) ∧
    ∀ q, (NotebookFile.make parseDocC [2] fiC.name
        (LocalStore.get_local_file_path fiC)).local_png_path 0
        = Except.ok q →
      dictGet q (LocalStore.get_notebook_file md5zW parseDocC dlOkW
        fsOldPngC fiC).fs = none :=
  ⟨(fresh_download_clears_new_page_paths md5zW parseDocC dlOkW fsOldPngC
      fiC (by decide) (fun c hc => by
        have : dictGet (LocalStore.get_local_file_path fiC) fsOldPngC
            = none := by decide
        rw [this] at hc
        exact Option.noConfusion hc) [2] rfl).1,
   (fresh_download_clears_new_page_paths md5zW parseDocC dlOkW fsOldPngC
      fiC (by decide) (fun c hc => by
        have : dictGet (LocalStore.get_local_file_path fiC) fsOldPngC
            = none := by decide
        rw [this] at hc
        exact Option.noConfusion hc) [2] rfl).2 0 (by decide)⟩

/-- C6 counterexample: the old document (page id X) had left
"Note-000-X.png" on disk; downloading the new document (page id Y)
clears only "Note-000-Y.png", and the old image — rendered from the
old contents — is still on disk after the operation, although the
claim says no PNG rendered from the old document may remain. -/
theorem fresh_download_old_png_survives :
    (LocalStore.get_notebook_file md5zW parseDocC dlOkW fsOldPngC
        fiC).download_calls = 1 ∧
    dictGet oldPngPathC
      (LocalStore.get_notebook_file md5zW parseDocC dlOkW fsOldPngC
        fiC).fs = some [9] := by
  constructor
  · rfl
  · rfl

/-! ## C8: page-index bounds in get_note_png -/

/-- C8: once the notebook is obtained, `get_note_png` fails with the
"Invalid page number" `ValueError` for every `page_num` outside
`[0, page_count)` — returning that error, never an empty or default
image — and for `page_num` inside the range it never raises that
error (an empty render raises the distinct "Failed to convert note to
PNG" error instead, not the bounds error). -/
theorem get_note_png_bounds (md5 : Bytes → List Char)
    (parseDoc : Bytes → Notebook) (render : Notebook → Int → Bytes)
    (dl : Int → Except StoreError Bytes) (fs : FileSystem) (fi : FileInfo)
    (page_num : Int) (nf : NotebookFile) (fs1 : FileSystem) (d r : Nat)
    (hnb : LocalStore.get_notebook_file md5 parseDoc dl fs fi
      = ⟨Except.ok nf, fs1, d, r⟩) :
    ((page_num < 0 ∨ (nf.pages.length : Int) ≤ page_num) →
      (LocalStore.get_note_png md5 parseDoc render dl fs fi
        page_num).result = Except.error StoreError.invalidPageNumber) ∧
    (0 ≤ page_num → page_num < (nf.pages.length : Int) →
      (LocalStore.get_note_png md5 parseDoc render dl fs fi
        page_num).result ≠ Except.error StoreError.invalidPageNumber) := by
  constructor
  · intro hout
    have hpng : nf.local_png_path page_num
        = Except.error StoreError.invalidPageNumber := by
      unfold NotebookFile.local_png_path
      rw [if_pos (hout.elim Or.inr Or.inl)]
    unfold LocalStore.get_note_png
    rw [hnb]
    simp [NotebookFile.read_png, hpng]
  · intro h0 hlt
    obtain ⟨q, hq⟩ : ∃ q, nf.local_png_path page_num = Except.ok q := by
      unfold NotebookFile.local_png_path
      rw [if_neg (by omega)]
      exact ⟨_, rfl⟩
    unfold LocalStore.get_note_png
    rw [hnb]
    rcases hread : dictGet q fs1 with _ | c
    · rcases hrender : render nf.notebook page_num with _ | ⟨b, bs⟩ <;>
        simp [NotebookFile.read_png, NotebookFile.save_page_png, hq,
          hread, dictGet_dictInsert, hrender]
    · simp [NotebookFile.read_png, hq, hread]

/-- Concrete instance of C8: page 5 of a 1-page notebook is rejected
with the bounds error; page 0 never yields that error. -/
theorem get_note_png_bounds_witness :
    (LocalStore.get_note_png md5W parseDocW renderW dlOkW fsLocalW fiW
      5).result = Except.error StoreError.invalidPageNumber ∧
    (LocalStore.get_note_png md5W parseDocW renderW dlOkW fsLocalW
      fiW 0).result ≠ Except.error StoreError.invalidPageNumber :=
  ⟨(get_note_png_bounds md5W parseDocW renderW dlOkW fsLocalW fiW 5 nfW
      fsLocalW 0 0 rfl).1 (by decide),
   (get_note_png_bounds md5W parseDocW renderW dlOkW fsLocalW fiW 0 nfW
      fsLocalW 0 0 rfl).2 (by decide) (by decide)⟩

end SupernoteCloud
